import Mathlib

/-!
Shallow embedding of the StockMarket-Simulator matching core
(`backend-c/src/order_book.c`, `engine.c`, `network.c`, `protocol.c`,
`math_model.c`) and proofs about the claims on its specification.

Modelling conventions, fixed once for the whole file:

* C `double` prices are modelled as `Rat`.  Every price appearing in the
  claims (99, 100, 101, 102, 150, ...) is exactly representable as a double,
  and on exactly-representable values the double comparisons `<`, `>`, `==`
  used by the source coincide with the rational ones.
* `uint32_t` / `uint64_t` values are `Nat`, reduced modulo `2^32` / `2^64`
  at each arithmetic step (`u32add`, `u32sub`, and the explicit `% U64` on
  the order-id counter), mirroring C unsigned wrap-around.
* The per-side AVL tree of `PriceLevel`s is modelled by its in-order
  traversal: a best-first list (bids descending by price, asks ascending).
  `avl_insert`, `avl_find`, `avl_delete` and `avl_get_best` below compute
  exactly the in-order projection of the corresponding tree operations of
  `order_book.c`; the spec's §4.1 fixes this traversal as the only
  observable contract of the index.
* `free`/`order_destroy` are modelled as unlinking (no memory reuse is
  modelled), and the wall-clock `timestamp` fields (microseconds from
  `gettimeofday`) are omitted: no claim mentions them.
* The `ticker` string stored inside `Order` and `OrderBook` is carried at
  the engine level (association list from ticker to book) and omitted from
  the book itself; it is never read by any book operation.
-/

namespace StockMarket

/-- `2^32`, the modulus of C `unsigned int` / `uint32_t` arithmetic. -/
def U32 : Nat := 4294967296

/-- `2^64`, the modulus of C `uint64_t` arithmetic. -/
def U64 : Nat := 18446744073709551616

/-- C `uint32_t` addition (wraps modulo `2^32`). -/
def u32add (a b : Nat) : Nat := (a + b) % U32

/-- C `uint32_t` subtraction (wraps modulo `2^32`); callers store values
already reduced below `2^32`. -/
def u32sub (a b : Nat) : Nat := (a + U32 - b % U32) % U32

/-- `OrderSide` from `order_book.h` (`SIDE_BUY = 0`, `SIDE_SELL = 1`). -/
inductive OrderSide
  | buy
  | sell
deriving DecidableEq, Repr

/-- `OrderType` from `order_book.h` (`ORDER_TYPE_MARKET = 0`,
`ORDER_TYPE_LIMIT = 1`). -/
inductive OrderType
  | market
  | limit
deriving DecidableEq, Repr

/-- `OrderStatus` from `order_book.h`; `partFilled` renders
`ORDER_STATUS_PARTIAL`. -/
inductive OrderStatus
  | new
  | partFilled
  | filled
  | cancelled
deriving DecidableEq, Repr

/-- `struct Order` (without the omitted `ticker`, `timestamp` and the
intrusive `next`/`prev` links, which are represented by the position of the
order inside its level's list). -/
structure Order where
  id : Nat
  side : OrderSide
  type : OrderType
  price : Rat
  quantity : Nat
  filled_qty : Nat
  status : OrderStatus
deriving DecidableEq, Repr

/-- `struct PriceLevel`: price, cached total quantity and the FIFO queue
(head of the list = head of the queue = oldest order). -/
structure PriceLevel where
  price : Rat
  total_quantity : Nat
  orders : List Order
deriving DecidableEq, Repr

/-- `struct OrderBook` (ticker string and mutex omitted; each side is the
in-order traversal of its AVL tree, best level first). -/
structure OrderBook where
  bids : List PriceLevel
  asks : List PriceLevel
  next_order_id : Nat
  best_bid : Rat
  best_ask : Rat
  last_trade_price : Rat
  last_trade_qty : Nat
deriving DecidableEq, Repr

/-- `struct ExecutionReport` (timestamp omitted). -/
structure ExecutionReport where
  order_id : Nat
  match_id : Nat
  price : Rat
  quantity : Nat
  status : OrderStatus
deriving DecidableEq, Repr

/-- `avl_get_best`: the leftmost node of the tree = head of the in-order
list. -/
def avl_get_best (levels : List PriceLevel) : Option PriceLevel :=
  levels.head?

/-- Price of the best level, or `0.0` when the side is empty (the common
`best ? best->price : 0.0` idiom of `order_book.c`). -/
def side_best (levels : List PriceLevel) : Rat :=
  match avl_get_best levels with
  | some l => l.price
  | none => 0

/-- `order_book_get_best_bid` (reads the tree, not the cache). -/
def order_book_get_best_bid (book : OrderBook) : Rat :=
  side_best book.bids

/-- `order_book_get_best_ask` (reads the tree, not the cache). -/
def order_book_get_best_ask (book : OrderBook) : Rat :=
  side_best book.asks

/-- `avl_find`: locate the level with exactly this price. -/
def avl_find (levels : List PriceLevel) (price : Rat) : Option PriceLevel :=
  levels.find? (fun l => decide (l.price = price))

/-- `avl_insert` projected to the in-order list: the new level is placed
before the first level it would branch left of (`go_left` uses
`price > node->price` for bids and `price < node->price` for asks, giving
descending bids and ascending asks). -/
def avl_insert (levels : List PriceLevel) (new_level : PriceLevel)
    (is_bid : Bool) : List PriceLevel :=
  match levels with
  | [] => [new_level]
  | l :: rest =>
    let go_left : Bool :=
      if is_bid then decide (new_level.price > l.price)
      else decide (new_level.price < l.price)
    if go_left then new_level :: l :: rest
    else l :: avl_insert rest new_level is_bid

/-- `avl_delete` projected to the in-order list: drop the first (unique, in
a well-formed tree) level carrying this price.  The `is_bid` orientation
argument of the C function only steers the tree navigation and does not
affect the in-order result. -/
def avl_delete (levels : List PriceLevel) (price : Rat) (_is_bid : Bool) :
    List PriceLevel :=
  match levels with
  | [] => []
  | l :: rest =>
    if l.price = price then rest else l :: avl_delete rest price _is_bid

/-- The FIFO append plus `total_quantity += quantity` performed by
`order_book_add_order` on the (unique) level with the order's price. -/
def level_append (levels : List PriceLevel) (price : Rat) (order : Order) :
    List PriceLevel :=
  match levels with
  | [] => []
  | l :: rest =>
    if l.price = price then
      { l with
        orders := l.orders ++ [order],
        total_quantity := u32add l.total_quantity order.quantity } :: rest
    else l :: level_append rest price order

/-- `order_create` (id supplied by the caller; `filled_qty = 0`,
`status = ORDER_STATUS_NEW`).  The quantity is the `uint32_t` the C function
receives. -/
def order_create (id : Nat) (side : OrderSide) (type : OrderType)
    (price : Rat) (quantity : Nat) : Order :=
  { id := id, side := side, type := type, price := price,
    quantity := quantity % U32, filled_qty := 0, status := OrderStatus.new }

/-- `order_book_create` (engine's `engine_add_ticker` overwrites
`last_trade_price` afterwards). -/
def order_book_create : OrderBook :=
  { bids := [], asks := [], next_order_id := 1,
    best_bid := 0, best_ask := 0, last_trade_price := 0, last_trade_qty := 0 }

/-- The book installed by `engine_add_ticker`: a fresh book whose
`last_trade_price` is the ticker's initial price. -/
def engine_add_ticker_book (initial_price : Rat) : OrderBook :=
  { order_book_create with last_trade_price := initial_price }

/-- `order_book_add_order`: allocate the next id, create the order, return
immediately for market orders, otherwise install the order at the tail of
the FIFO of its price level (creating the level if absent) and refresh the
side's best-price cache from the tree. -/
def order_book_add_order (book : OrderBook) (side : OrderSide)
    (type : OrderType) (price : Rat) (quantity : Nat) : OrderBook × Order :=
  let order_id := book.next_order_id
  let book1 := { book with next_order_id := (book.next_order_id + 1) % U64 }
  let order := order_create order_id side type price quantity
  if type = OrderType.market then
    (book1, order)
  else
    let is_bid : Bool := decide (side = OrderSide.buy)
    let root := if is_bid then book1.bids else book1.asks
    let root1 :=
      match avl_find root price with
      | some _ => level_append root price order
      | none =>
        let lvl : PriceLevel := { price := price, total_quantity := 0, orders := [] }
        level_append (avl_insert root lvl is_bid) price order
    if is_bid then
      ({ book1 with bids := root1, best_bid := side_best root1 }, order)
    else
      ({ book1 with asks := root1, best_ask := side_best root1 }, order)

/-- Remove the first order with this id from a FIFO, returning it and the
remaining queue (the doubly-linked-list splice of
`order_book_cancel_order`). -/
def orders_remove (orders : List Order) (order_id : Nat) :
    Option (Order × List Order) :=
  match orders with
  | [] => none
  | o :: rest =>
    if o.id = order_id then some (o, rest)
    else
      match orders_remove rest order_id with
      | some (found, rest1) => some (found, o :: rest1)
      | none => none

/-- The in-order search of `order_book_cancel_order` over one side: find the
first level containing the id, splice the order out and subtract its
unfilled quantity from the level total.  Returns the updated side, the
level's price and whether its queue became empty. -/
def side_cancel (levels : List PriceLevel) (order_id : Nat) :
    Option (List PriceLevel × Rat × Bool) :=
  match levels with
  | [] => none
  | l :: rest =>
    match orders_remove l.orders order_id with
    | some (o, orders1) =>
      let l1 := { l with
        orders := orders1,
        total_quantity := u32sub l.total_quantity (u32sub o.quantity o.filled_qty) }
      some (l1 :: rest, l.price, orders1.isEmpty)
    | none =>
      match side_cancel rest order_id with
      | some (rest1, p, e) => some (l :: rest1, p, e)
      | none => none

/-- `order_book_cancel_order`: search bids first, then asks; on success
splice the order, delete the level if its queue emptied and re-derive the
side's best cache, and report `true`. -/
def order_book_cancel_order (book : OrderBook) (order_id : Nat) :
    OrderBook × Bool :=
  match side_cancel book.bids order_id with
  | some (bids1, p, emptied) =>
    if emptied then
      let bids2 := avl_delete bids1 p true
      ({ book with bids := bids2, best_bid := side_best bids2 }, true)
    else
      ({ book with bids := bids1 }, true)
  | none =>
    match side_cancel book.asks order_id with
    | some (asks1, p, emptied) =>
      if emptied then
        let asks2 := avl_delete asks1 p false
        ({ book with asks := asks2, best_ask := side_best asks2 }, true)
      else
        ({ book with asks := asks1 }, true)
    | none => (book, false)

/-- Result of walking one price level's FIFO inside `engine_match_orders`:
the updated incoming order, the level's remaining queue and total, the
book's last-trade fields threaded through every fill, the emitted
execution reports, and whether the C traversal pointer `resting` is NULL
when the inner `while` exits (`resting_none`), which decides the final
`if (!resting) break`. -/
structure FillResult where
  incoming : Order
  orders : List Order
  total_quantity : Nat
  last_trade_price : Rat
  last_trade_qty : Nat
  reports : List ExecutionReport
  resting_none : Bool
deriving DecidableEq, Repr

/-- The inner `while (resting && incoming->quantity > incoming->filled_qty)`
loop of `engine_match_orders`, walking one level's FIFO head to tail.
Per resting order: `fill_qty = min(remaining_incoming, remaining_resting)`,
both `filled_qty` fields advance, the level total drops by `fill_qty`, the
book's last-trade price/qty are overwritten (even for a zero fill), two
reports are emitted (aggressor first), the incoming status becomes
FILLED/PARTIAL, and a fully filled resting order is spliced out and
destroyed (a partially filled one keeps its previous status and stays). -/
def fill_level_orders (incoming : Order) (orders : List Order) (total : Nat)
    (lvl_price : Rat) (ltp : Rat) (ltq : Nat) : FillResult :=
  match orders with
  | [] => ⟨incoming, [], total, ltp, ltq, [], true⟩
  | r :: rest =>
    if incoming.filled_qty < incoming.quantity then
      let rem_in := u32sub incoming.quantity incoming.filled_qty
      let rem_re := u32sub r.quantity r.filled_qty
      let fill_qty := min rem_in rem_re
      let inc1 := { incoming with filled_qty := u32add incoming.filled_qty fill_qty }
      let r1 := { r with filled_qty := u32add r.filled_qty fill_qty }
      let report_incoming : ExecutionReport :=
        { order_id := inc1.id, match_id := r1.id, price := lvl_price,
          quantity := fill_qty,
          status := if inc1.quantity ≤ inc1.filled_qty then OrderStatus.filled
                    else OrderStatus.partFilled }
      let report_resting : ExecutionReport :=
        { order_id := r1.id, match_id := inc1.id, price := lvl_price,
          quantity := fill_qty,
          status := if r1.quantity ≤ r1.filled_qty then OrderStatus.filled
                    else OrderStatus.partFilled }
      let inc2 := { inc1 with
        status := if inc1.quantity ≤ inc1.filled_qty then OrderStatus.filled
                  else OrderStatus.partFilled }
      if r1.quantity ≤ r1.filled_qty then
        -- the resting order's status is set to FILLED and the object is
        -- immediately spliced out and destroyed, so it leaves no trace
        let res := fill_level_orders inc2 rest (u32sub total fill_qty)
          lvl_price lvl_price fill_qty
        { res with reports := report_incoming :: report_resting :: res.reports }
      else
        let res := fill_level_orders inc2 rest (u32sub total fill_qty)
          lvl_price lvl_price fill_qty
        { res with
          orders := r1 :: res.orders,
          reports := report_incoming :: report_resting :: res.reports }
    else
      ⟨incoming, r :: rest, total, ltp, ltq, [], false⟩

/-- The outer `while (incoming->quantity > incoming->filled_qty)` loop of
`engine_match_orders`, fuelled.  One iteration: read the opposing best
price from the tree, break when it is `<= 0` or (for limit orders) not
acceptable, walk the best level's FIFO, and when the level's queue emptied
set the whole opposing root to NULL (the source's defect, its own comment:
"Simplified - proper AVL delete needed") and re-derive that side's best
cache; finally `if (!resting) break`.  `match_loop_fuel` below proves the
result does not depend on the fuel once it is positive. -/
def match_loop (fuel : Nat) (book : OrderBook) (incoming : Order) :
    OrderBook × Order × List ExecutionReport :=
  match fuel with
  | 0 => (book, incoming, [])
  | fuel + 1 =>
    if incoming.filled_qty < incoming.quantity then
      let is_buy : Bool := decide (incoming.side = OrderSide.buy)
      let best_price :=
        if is_buy then order_book_get_best_ask book else order_book_get_best_bid book
      if best_price ≤ 0 then (book, incoming, [])
      else
        let price_break : Bool :=
          decide (incoming.type = OrderType.limit) &&
            (if is_buy then decide (best_price > incoming.price)
             else decide (best_price < incoming.price))
        if price_break then (book, incoming, [])
        else
          match (if is_buy then book.asks else book.bids) with
          | [] => (book, incoming, [])
          | lvl :: rest =>
            let fr := fill_level_orders incoming lvl.orders lvl.total_quantity
              lvl.price book.last_trade_price book.last_trade_qty
            let book1 :=
              if fr.orders.isEmpty then
                if is_buy then
                  { book with
                    asks := [],
                    best_ask := side_best ([] : List PriceLevel),
                    last_trade_price := fr.last_trade_price,
                    last_trade_qty := fr.last_trade_qty }
                else
                  { book with
                    bids := [],
                    best_bid := side_best ([] : List PriceLevel),
                    last_trade_price := fr.last_trade_price,
                    last_trade_qty := fr.last_trade_qty }
              else
                let lvl1 := { lvl with
                  orders := fr.orders, total_quantity := fr.total_quantity }
                if is_buy then
                  { book with
                    asks := lvl1 :: rest,
                    last_trade_price := fr.last_trade_price,
                    last_trade_qty := fr.last_trade_qty }
                else
                  { book with
                    bids := lvl1 :: rest,
                    last_trade_price := fr.last_trade_price,
                    last_trade_qty := fr.last_trade_qty }
            if fr.resting_none then (book1, fr.incoming, fr.reports)
            else
              let res := match_loop fuel book1 fr.incoming
              (res.1, res.2.1, fr.reports ++ res.2.2)
    else (book, incoming, [])

/-- `engine_match_orders`.  Fuel 2 is exact: the loop body can only repeat
when the traversal pointer is non-NULL on exit, which forces the incoming
order to be fully filled, so the second iteration exits at its guard
(`match_loop_fuel`). -/
def engine_match_orders (book : OrderBook) (incoming : Order) :
    OrderBook × Order × List ExecutionReport :=
  match_loop 2 book incoming

/-- Replace the last element of a FIFO (the tail pointer of the C list). -/
def replace_tail (orders : List Order) (o : Order) : List Order :=
  match orders with
  | [] => []
  | [_] => [o]
  | x :: y :: rest => x :: replace_tail (y :: rest) o

/-- Write the final state of the incoming order back into the book copy
that `order_book_add_order` installed: in C the two are one heap object
(the order at the tail of the FIFO of the level at the order's limit
price), and `engine_match_orders` mutates it in place while it rests;
matching never reads or reshapes the incoming order's own side, so the
write-back after matching is observationally the same. -/
def level_write_back (levels : List PriceLevel) (price : Rat) (o : Order) :
    List PriceLevel :=
  match levels with
  | [] => []
  | l :: rest =>
    if l.price = price then { l with orders := replace_tail l.orders o } :: rest
    else l :: level_write_back rest price o

/-- Body of `engine_submit_order` once the book is resolved and locked:
`order_book_add_order`, then `engine_match_orders`, then a market order
with unfilled quantity is marked cancelled and destroyed (never rests).
Returns the final book, the accumulated execution reports, and the final
state of the submitted order record. -/
def submit_order_on_book (book : OrderBook) (side : OrderSide)
    (type : OrderType) (price : Rat) (quantity : Nat) :
    OrderBook × List ExecutionReport × Order :=
  let add_res := order_book_add_order book side type price quantity
  let m := engine_match_orders add_res.1 add_res.2
  if type = OrderType.market then
    if m.2.1.filled_qty < m.2.1.quantity then
      (m.1, m.2.2, { m.2.1 with status := OrderStatus.cancelled })
    else (m.1, m.2.2, m.2.1)
  else
    let book3 :=
      if side = OrderSide.buy then
        { m.1 with bids := level_write_back m.1.bids price m.2.1 }
      else
        { m.1 with asks := level_write_back m.1.asks price m.2.1 }
    (book3, m.2.2, m.2.1)

/-- The exchange engine's ticker table: an association list from ticker to
book, in insertion order (the C array of at most `MAX_TICKERS` books,
scanned linearly by `strcmp`). -/
abbrev EngineBooks : Type := List (String × OrderBook)

/-- `engine_get_order_book`: first book whose ticker matches. -/
def engine_get_order_book (engine : EngineBooks) (ticker : String) :
    Option OrderBook :=
  match engine with
  | [] => none
  | tb :: rest =>
    if tb.1 = ticker then some tb.2 else engine_get_order_book rest ticker

/-- Store an updated book back into the (first matching) ticker slot. -/
def engine_update_book (engine : EngineBooks) (ticker : String)
    (book : OrderBook) : EngineBooks :=
  match engine with
  | [] => []
  | tb :: rest =>
    if tb.1 = ticker then (tb.1, book) :: rest
    else tb :: engine_update_book rest ticker book

/-- `engine_submit_order`: resolve the book by ticker (NULL result when
unknown), then run the submission body on it. -/
def engine_submit_order (engine : EngineBooks) (ticker : String)
    (side : OrderSide) (type : OrderType) (price : Rat) (quantity : Nat) :
    Option (EngineBooks × List ExecutionReport × Order) :=
  match engine_get_order_book engine ticker with
  | none => none
  | some book =>
    let r := submit_order_on_book book side type price quantity
    some (engine_update_book engine ticker r.1, r.2.1, r.2.2)

/-- `engine_cancel_order`: resolve the book (false when the ticker is
unknown) and delegate to `order_book_cancel_order`. -/
def engine_cancel_order (engine : EngineBooks) (ticker : String)
    (order_id : Nat) : EngineBooks × Bool :=
  match engine_get_order_book engine ticker with
  | none => (engine, false)
  | some book =>
    let r := order_book_cancel_order book order_id
    (engine_update_book engine ticker r.1, r.2)

/-- `OrderRequest` from `protocol.h`. -/
structure OrderRequest where
  ticker : String
  side : OrderSide
  type : OrderType
  price : Rat
  quantity : Nat
deriving DecidableEq, Repr

/-- `CancelRequest` from `protocol.h`. -/
structure CancelRequest where
  ticker : String
  order_id : Nat
deriving DecidableEq, Repr

/-- A decoded inbound message as seen by the dispatch switch of
`network_handle_client_data`; every message type other than `ORDER_NEW` and
`ORDER_CANCEL` falls into the ignored `default` arm. -/
inductive ProtocolMessage
  | orderNew (req : OrderRequest)
  | orderCancel (req : CancelRequest)
  | otherMsg
deriving DecidableEq, Repr

/-- An outbound frame written back on the originating session. -/
inductive OutboundMessage
  | execReport (r : ExecutionReport)
  | errorMsg (message : String)
deriving DecidableEq, Repr

/-- The message-dispatch switch of `network_handle_client_data`
(`network.c` lines 247-291): `ORDER_NEW` submits and, only when the result
is non-NULL, sends one serialized execution report per fill; a NULL result
(unknown ticker) sends nothing.  `ORDER_CANCEL` cancels and sends
`ERROR "Order not found"` exactly when the cancel returned false.  The
final `Bool` is whether the connection is still open: this switch never
disconnects the client. -/
def network_handle_message (engine : EngineBooks) (msg : ProtocolMessage) :
    EngineBooks × List OutboundMessage × Bool :=
  match msg with
  | ProtocolMessage.orderNew req =>
    match engine_submit_order engine req.ticker req.side req.type req.price
        req.quantity with
    | none => (engine, [], true)
    | some (engine1, reports, _) =>
      (engine1, reports.map OutboundMessage.execReport, true)
  | ProtocolMessage.orderCancel req =>
    let r := engine_cancel_order engine req.ticker req.order_id
    if r.2 then (r.1, [], true)
    else (r.1, [OutboundMessage.errorMsg "Order not found"], true)
  | ProtocolMessage.otherMsg => (engine, [], true)

/-- Process-wide RNG state of `math_model.c`: `rng_state` (a C
`unsigned int`), the Box-Muller `has_spare` flag and the cached spare
sample.  A normal sample is represented by the pair of 15-bit LCG draws
`(k1, k2)` that produced it: the emitted double (`u1*mul` for the fresh
sample, `u2*mul` for the cached spare, with
`mul = sqrt(-2*log(s)/s)`) is the image of that pair under a fixed
deterministic sequence of IEEE-754 operations, so equal draw pairs give
bit-equal doubles. -/
structure RngState where
  rng_state : Nat
  has_spare : Bool
  spare : Nat × Nat
deriving DecidableEq, Repr

/-- `rng_seed`: store the seed and drop the cached spare flag
(`spare_normal` itself is not cleared — only the flag). -/
def rng_seed (seed : Nat) (st : RngState) : RngState :=
  { st with rng_state := seed % U32, has_spare := false }

/-- `lcg_next`: `rng_state = rng_state * 1103515245 + 12345` in `unsigned
int` arithmetic, output `(rng_state >> 16) & 0x7FFF`. -/
def lcg_next (st : RngState) : Nat × RngState :=
  let s1 := (st.rng_state * 1103515245 + 12345) % U32
  ((s1 / 65536) % 32768, { st with rng_state := s1 })

/-- `rng_uniform` returns `(double)lcg_next() / 32767.0`; we track the
integer draw, of which the emitted double is a fixed deterministic
function. -/
def rng_uniform (st : RngState) : Nat × RngState :=
  lcg_next st

/-- A Box-Muller output, identified by the draws that generated it. -/
inductive NormalSample
  | fresh (k1 k2 : Nat)
  | cached (k1 k2 : Nat)
deriving DecidableEq, Repr

/-- The rejection loop of `rng_normal`, fuelled.  `accept k1 k2` abstracts
the double-precision test `!(s >= 1.0 || s == 0.0)` on
`s = u1*u1 + u2*u2` with `u1 = 2*(k1/32767)-1`, `u2 = 2*(k2/32767)-1`: a
fixed deterministic predicate on the two integer draws.  On acceptance the
second output is cached as the spare. -/
def rng_normal_loop (accept : Nat → Nat → Bool) :
    Nat → RngState → Option (NormalSample × RngState)
  | 0, _ => none
  | fuel + 1, st =>
    let d1 := rng_uniform st
    let d2 := rng_uniform d1.2
    if accept d1.1 d2.1 then
      some (NormalSample.fresh d1.1 d2.1,
            { d2.2 with has_spare := true, spare := (d1.1, d2.1) })
    else rng_normal_loop accept fuel d2.2

/-- `rng_normal`: return the cached spare when available, otherwise run the
Box-Muller rejection loop. -/
def rng_normal (accept : Nat → Nat → Bool) (fuel : Nat) (st : RngState) :
    Option (NormalSample × RngState) :=
  if st.has_spare then
    some (NormalSample.cached st.spare.1 st.spare.2,
          { st with has_spare := false })
  else rng_normal_loop accept fuel st

/-- One client call into the RNG. -/
inductive RngCall
  | uniform
  | normal
deriving DecidableEq, Repr

/-- One observed RNG output (`n none` marks rejection-loop divergence,
after which the trace stops). -/
inductive RngOutput
  | u (k : Nat)
  | n (v : NormalSample)
  | diverged
deriving DecidableEq, Repr

/-- Run a sequence of RNG calls from a state, recording the outputs. -/
def rng_run (accept : Nat → Nat → Bool) (fuel : Nat) :
    List RngCall → RngState → List RngOutput
  | [], _ => []
  | RngCall.uniform :: calls, st =>
    let d := rng_uniform st
    RngOutput.u d.1 :: rng_run accept fuel calls d.2
  | RngCall.normal :: calls, st =>
    match rng_normal accept fuel st with
    | some (v, st1) => RngOutput.n v :: rng_run accept fuel calls st1
    | none => [RngOutput.diverged]

/-- A parsed JSON value as far as `protocol_parse_order_request` inspects
it through the vendored cJSON API: the root is either an object (a list of
members in document order) or some non-object value, and a member's value
is classified by the `cJSON_IsString` / `cJSON_IsNumber` tests; container
values, booleans and null are never read beyond that test. -/
inductive JsonVal
  | str (s : String)
  | num (q : Rat)
  | other
deriving DecidableEq, Repr

/-- A successfully parsed JSON document root. -/
inductive Json
  | obj (members : List (String × JsonVal))
  | nonObject
deriving DecidableEq, Repr

/-- `cJSON_GetObjectItem`: first member (in document order) whose name
matches case-insensitively; NULL on a non-object root. -/
def cJSON_GetObjectItem (root : Json) (key : String) : Option JsonVal :=
  match root with
  | Json.nonObject => none
  | Json.obj members =>
    match members.find? (fun m => m.1.toLower == key.toLower) with
    | some m => some m.2
    | none => none

/-- `string_to_side` from `protocol.c`: `"BUY"` maps to BUY, anything else
(including the NULL guard) to SELL. -/
def string_to_side (s : String) : OrderSide :=
  if s = "BUY" then OrderSide.buy else OrderSide.sell

/-- `string_to_type` from `protocol.c`: `"MARKET"` maps to MARKET, anything
else to LIMIT. -/
def string_to_type (s : String) : OrderType :=
  if s = "MARKET" then OrderType.market else OrderType.limit

/-- The `(uint32_t)valuedouble` conversion: truncation of a non-negative
double; a negative or out-of-range double is undefined behaviour in C and
is modelled as 0 here (no claim exercises it). -/
def double_to_u32 (q : Rat) : Nat :=
  if 0 ≤ q then q.floor.toNat % U32 else 0

/-- The zero-initialized `OrderRequest` produced by `memset(req, 0, ...)`:
empty ticker, side `SIDE_BUY` (enum 0), type `ORDER_TYPE_MARKET` (enum 0),
price 0, quantity 0. -/
def zero_order_request : OrderRequest :=
  { ticker := "", side := OrderSide.buy, type := OrderType.market,
    price := 0, quantity := 0 }

/-- `protocol_parse_order_request`.  The argument is the result of
`cJSON_Parse` (`none` = parse failure, in which case the C function
returns false with `req` untouched).  On any successfully parsed root it
zero-initializes the request, overwrites each field only when the
corresponding member is present and of the tested kind (ticker truncated
to 15 characters by `strncpy`), and returns true. -/
def protocol_parse_order_request (root : Option Json) :
    Bool × OrderRequest :=
  match root with
  | none => (false, zero_order_request)
  | some root =>
    let req := zero_order_request
    let req :=
      match cJSON_GetObjectItem root "ticker" with
      | some (JsonVal.str s) => { req with ticker := String.mk (s.toList.take 15) }
      | _ => req
    let req :=
      match cJSON_GetObjectItem root "side" with
      | some (JsonVal.str s) => { req with side := string_to_side s }
      | _ => req
    let req :=
      match cJSON_GetObjectItem root "type" with
      | some (JsonVal.str s) => { req with type := string_to_type s }
      | _ => req
    let req :=
      match cJSON_GetObjectItem root "price" with
      | some (JsonVal.num q) => { req with price := q }
      | _ => req
    let req :=
      match cJSON_GetObjectItem root "quantity" with
      | some (JsonVal.num q) => { req with quantity := double_to_u32 q }
      | _ => req
    (true, req)

/-- Ids of the orders queued at one level. -/
def level_ids (l : PriceLevel) : List Nat :=
  l.orders.map (fun o => o.id)

/-- Ids of all orders resting on one side, in traversal order. -/
def side_ids (levels : List PriceLevel) : List Nat :=
  match levels with
  | [] => []
  | l :: rest => level_ids l ++ side_ids rest

/-- Ids of all orders resting anywhere in a book. -/
def book_order_ids (book : OrderBook) : List Nat :=
  side_ids book.bids ++ side_ids book.asks

/-- Sum of `order.quantity - order.filled_qty` over a FIFO (all stored
quantities are below `2^32`, so plain `Nat` subtraction agrees with the
C expression). -/
def orders_unfilled_sum (orders : List Order) : Nat :=
  match orders with
  | [] => 0
  | o :: rest => (o.quantity - o.filled_qty) + orders_unfilled_sum rest

/-- Invariant I2 at one level: the cached total equals the queue's unfilled
sum. -/
def level_i2 (l : PriceLevel) : Prop :=
  l.total_quantity = orders_unfilled_sum l.orders

instance (l : PriceLevel) : Decidable (level_i2 l) := by
  unfold level_i2; infer_instance

/-- The AAPL book as installed at startup (initial price 150). -/
def aapl_book : OrderBook := engine_add_ticker_book 150

/-- C1 scenario, first step: sell-limit @100 qty 100 into the empty book. -/
def c1_step1 : OrderBook × List ExecutionReport × Order :=
  submit_order_on_book aapl_book OrderSide.sell OrderType.limit 100 100

/-- C1 scenario, second step: buy-limit @100 qty 100 crossing the resting
sell. -/
def c1_step2 : OrderBook × List ExecutionReport × Order :=
  submit_order_on_book c1_step1.1 OrderSide.buy OrderType.limit 100 100

/-- C2 scenario: sell-limit @99 qty 10, then buy-limit @100 qty 5. -/
def c2_book : OrderBook :=
  (submit_order_on_book
    (submit_order_on_book aapl_book OrderSide.sell OrderType.limit 99 10).1
    OrderSide.buy OrderType.limit 100 5).1

/-- C3 scenario: resting asks at 100 (qty 10) and 101 (qty 10). -/
def c3_before : OrderBook :=
  (submit_order_on_book
    (submit_order_on_book aapl_book OrderSide.sell OrderType.limit 100 10).1
    OrderSide.sell OrderType.limit 101 10).1

/-- C3 scenario: buy-limit @102 qty 10, which empties only the 100 level. -/
def c3_step : OrderBook × List ExecutionReport × Order :=
  submit_order_on_book c3_before OrderSide.buy OrderType.limit 102 10

/-- C4 scenario: sell-limit @100 qty 50, then buy-limit @100 qty 100. -/
def c4_book : OrderBook :=
  (submit_order_on_book
    (submit_order_on_book aapl_book OrderSide.sell OrderType.limit 100 50).1
    OrderSide.buy OrderType.limit 100 100).1

/-- C1: the spec's simple-cross scenario against the code.  The first
submission yields 0 reports and best_ask = 100, and the second yields
exactly the two FILLED reports at price 100 qty 100 with best_ask = 0 and
last_trade_price = 100 — but the fully filled aggressive buy is NOT
removed: it was installed in the bid index before matching and
`engine_submit_order` never removes a filled limit order, so afterwards
best_bid = 100 (not 0) and the filled order still rests in the level's
queue.  This refutes the claim's `best_bid = 0` and removal clauses. -/
theorem claim_c1_code_bug :
    c1_step1.2.1 = [] ∧
    c1_step1.1.best_ask = 100 ∧
    c1_step2.2.1 =
      [⟨2, 1, 100, 100, OrderStatus.filled⟩,
       ⟨1, 2, 100, 100, OrderStatus.filled⟩] ∧
    c1_step2.1.best_ask = 0 ∧
    order_book_get_best_ask c1_step2.1 = 0 ∧
    c1_step2.1.last_trade_price = 100 ∧
    c1_step2.1.best_bid = 100 ∧
    order_book_get_best_bid c1_step2.1 = 100 ∧
    c1_step2.1.bids =
      [⟨100, 100,
        [⟨2, OrderSide.buy, OrderType.limit, 100, 100, 100, OrderStatus.filled⟩]⟩] := by
  decide

/-- C2: invariant I1 fails.  After sell-limit @99 qty 10 and buy-limit @100
qty 5, the buy is fully filled at 99 but keeps resting at bid level 100 (it
was installed before matching and never removed), so best_bid = 100 and
best_ask = 99 are both defined yet best_bid < best_ask is false. -/
theorem claim_c2_code_bug :
    c2_book.best_bid = 100 ∧
    c2_book.best_ask = 99 ∧
    order_book_get_best_bid c2_book = 100 ∧
    order_book_get_best_ask c2_book = 99 ∧
    0 < c2_book.best_bid ∧
    0 < c2_book.best_ask ∧
    ¬ c2_book.best_bid < c2_book.best_ask := by
  decide

/-- C3: the frame property of level removal fails.  With asks resting at
100 and 101, a buy-limit @102 qty 10 empties only the 100 level, but
`engine_match_orders` sets the whole ask root to NULL
(`book->asks = NULL; // Simplified - proper AVL delete needed`), so the
untouched 101 level vanishes too: afterwards the ask side is empty,
price level 101 is not findable, and best_ask is 0 instead of 101. -/
theorem claim_c3_code_bug :
    c3_before.asks.map (fun l => l.price) = [100, 101] ∧
    c3_step.2.1 =
      [⟨3, 1, 100, 10, OrderStatus.filled⟩,
       ⟨1, 3, 100, 10, OrderStatus.filled⟩] ∧
    c3_step.1.asks = [] ∧
    avl_find c3_step.1.asks 101 = none ∧
    order_book_get_best_ask c3_step.1 = 0 := by
  decide

/-- C4: invariant I2 fails.  After sell-limit @100 qty 50 and buy-limit
@100 qty 100, the partially filled aggressive buy rests at bid level 100
with filled_qty = 50, but matching only decremented the OPPOSING level's
total, so the bid level still caches total_quantity = 100 while the sum of
unfilled quantities over its queue is 50. -/
theorem claim_c4_code_bug :
    c4_book.bids =
      [⟨100, 100,
        [⟨2, OrderSide.buy, OrderType.limit, 100, 100, 50, OrderStatus.partFilled⟩]⟩] ∧
    ∃ l ∈ c4_book.bids, ¬ level_i2 l := by
  refine ⟨by decide, ⟨100, 100,
    [⟨2, OrderSide.buy, OrderType.limit, 100, 100, 50, OrderStatus.partFilled⟩]⟩,
    by decide, by decide⟩

/-- The engine's ticker table for the C7 scenarios: only AAPL is known. -/
def c7_engine : EngineBooks := [("AAPL", aapl_book)]

/-- C7 (counterexample): an `ORDER_NEW` for the unknown ticker MSFT
produces NO outbound message at all — `engine_submit_order` returns NULL
and `network_handle_client_data` silently skips the send, so no `ERROR`
frame is written back, refuting the claim that unknown tickers are
surfaced as an `ERROR` message. -/
theorem claim_c7_counterexample :
    network_handle_message c7_engine
        (ProtocolMessage.orderNew
          { ticker := "MSFT", side := OrderSide.buy, type := OrderType.limit,
            price := 100, quantity := 10 }) =
      (c7_engine, [], true) := by
  decide

/-- C7 (amended): an `ORDER_NEW` naming an unknown ticker is dropped
silently (no outbound message, engine unchanged) with the connection left
open, while an `ORDER_CANCEL` whose cancel returns false sends exactly one
`ERROR "Order not found"` message on the originating session with the
connection left open. -/
theorem claim_c7_amended :
    (∀ (engine : EngineBooks) (req : OrderRequest),
        engine_get_order_book engine req.ticker = none →
        network_handle_message engine (ProtocolMessage.orderNew req) =
          (engine, [], true)) ∧
    (∀ (engine : EngineBooks) (req : CancelRequest),
        (engine_cancel_order engine req.ticker req.order_id).2 = false →
        network_handle_message engine (ProtocolMessage.orderCancel req) =
          ((engine_cancel_order engine req.ticker req.order_id).1,
           [OutboundMessage.errorMsg "Order not found"], true)) := by
  constructor
  · intro engine req h
    simp [network_handle_message, engine_submit_order, h]
  · intro engine req h
    simp [network_handle_message, h]

/-- C7 amended, witnessed at concrete inputs: the unknown ticker MSFT on an
AAPL-only engine, and a cancel of the unknown order id 42. -/
theorem claim_c7_amended_witness :
    network_handle_message c7_engine
        (ProtocolMessage.orderNew
          { ticker := "MSFT", side := OrderSide.sell, type := OrderType.market,
            price := 0, quantity := 5 }) =
      (c7_engine, [], true) ∧
    network_handle_message c7_engine
        (ProtocolMessage.orderCancel { ticker := "AAPL", order_id := 42 }) =
      ((engine_cancel_order c7_engine "AAPL" 42).1,
       [OutboundMessage.errorMsg "Order not found"], true) :=
  ⟨claim_c7_amended.1 c7_engine
    { ticker := "MSFT", side := OrderSide.sell, type := OrderType.market,
      price := 0, quantity := 5 } (by decide),
   claim_c7_amended.2 c7_engine { ticker := "AAPL", order_id := 42 } (by decide)⟩

/-- C10: `protocol_parse_order_request` accepts every JSON document that
parses as an object: it returns true unconditionally once `cJSON_Parse`
succeeded; absent members leave the zero-initialized defaults (side BUY,
type MARKET, price 0, quantity 0); and the enum decoders never reject:
any side string other than "BUY" becomes SELL and any type string other
than "MARKET" becomes LIMIT. -/
theorem claim_c10 :
    (∀ members : List (String × JsonVal),
        (protocol_parse_order_request (some (Json.obj members))).1 = true) ∧
    (∀ root : Json,
        cJSON_GetObjectItem root "side" = none →
        cJSON_GetObjectItem root "type" = none →
        cJSON_GetObjectItem root "price" = none →
        cJSON_GetObjectItem root "quantity" = none →
        (protocol_parse_order_request (some root)).2.side = OrderSide.buy ∧
        (protocol_parse_order_request (some root)).2.type = OrderType.market ∧
        (protocol_parse_order_request (some root)).2.price = 0 ∧
        (protocol_parse_order_request (some root)).2.quantity = 0) ∧
    (∀ s : String, s ≠ "BUY" → string_to_side s = OrderSide.sell) ∧
    (∀ s : String, s ≠ "MARKET" → string_to_type s = OrderType.limit) := by
  refine ⟨fun members => rfl, ?_, ?_, ?_⟩
  · intro root hS hT hP hQ
    simp only [protocol_parse_order_request, hS, hT, hP, hQ]
    cases cJSON_GetObjectItem root "ticker" with
    | none => exact ⟨rfl, rfl, rfl, rfl⟩
    | some v => cases v <;> exact ⟨rfl, rfl, rfl, rfl⟩
  · intro s h
    simp [string_to_side, h]
  · intro s h
    simp [string_to_type, h]

/-- C10, witnessed at concrete inputs: the empty JSON object parses to true
with all defaults, and the unknown enum strings "SELLING" / "STOP" map to
SELL / LIMIT. -/
theorem claim_c10_witness :
    (protocol_parse_order_request (some (Json.obj []))).1 = true ∧
    (protocol_parse_order_request (some (Json.obj []))).2.side = OrderSide.buy ∧
    (protocol_parse_order_request (some (Json.obj []))).2.type = OrderType.market ∧
    (protocol_parse_order_request (some (Json.obj []))).2.price = 0 ∧
    (protocol_parse_order_request (some (Json.obj []))).2.quantity = 0 ∧
    string_to_side "SELLING" = OrderSide.sell ∧
    string_to_type "STOP" = OrderType.limit := by
  have h := claim_c10
  have h2 := h.2.1 (Json.obj []) (by decide) (by decide) (by decide) (by decide)
  exact ⟨h.1 [], h2.1, h2.2.1, h2.2.2.1, h2.2.2.2,
    h.2.2.1 "SELLING" (by decide), h.2.2.2 "STOP" (by decide)⟩

/-- The Box-Muller rejection loop never reads the stale spare value: its
result is the same for any two states agreeing on `rng_state` and
`has_spare`. -/
theorem rng_normal_loop_spare (accept : Nat → Nat → Bool) :
    ∀ (fuel s : Nat) (hs : Bool) (sp₁ sp₂ : Nat × Nat),
      rng_normal_loop accept fuel ⟨s, hs, sp₁⟩ =
        rng_normal_loop accept fuel ⟨s, hs, sp₂⟩ := by
  intro fuel
  induction fuel with
  | zero => intro s hs sp₁ sp₂; rfl
  | succ n ih =>
    intro s hs sp₁ sp₂
    dsimp only [rng_normal_loop, rng_uniform, lcg_next]
    split
    · rfl
    · exact ih _ hs sp₁ sp₂

/-- The observable RNG trace does not depend on the stale spare value once
the `has_spare` flag is down. -/
theorem rng_run_spare (accept : Nat → Nat → Bool) (fuel : Nat) :
    ∀ (calls : List RngCall) (s : Nat) (sp₁ sp₂ : Nat × Nat),
      rng_run accept fuel calls ⟨s, false, sp₁⟩ =
        rng_run accept fuel calls ⟨s, false, sp₂⟩ := by
  intro calls
  induction calls with
  | nil => intro s sp₁ sp₂; rfl
  | cons c rest ih =>
    intro s sp₁ sp₂
    cases c with
    | uniform =>
      dsimp only [rng_run, rng_uniform, lcg_next]
      rw [ih]
    | normal =>
      dsimp only [rng_run, rng_normal]
      rw [rng_normal_loop_spare accept fuel s false sp₁ sp₂]
      rcases h : rng_normal_loop accept fuel ⟨s, false, sp₂⟩ with _ | ⟨v, st1⟩ <;>
        simp [h]

/-- C8: RNG seed determinism as a two-run property.  Whatever the two prior
RNG states were, `rng_seed(s)` followed by `rng_uniform()` produces the
same draw in both runs, and an arbitrary subsequent sequence of uniform and
Box-Muller normal calls produces the identical output trace — the reseed
stores the seed and clears `has_spare`, so the stale cached spare is
discarded and never observed.  Samples are identified by the 15-bit LCG
draws that generate them; the doubles the C code returns are fixed
deterministic functions of those draws, so equal traces give bit-equal
doubles.  The Box-Muller acceptance test and the loop fuel are arbitrary
parameters of the statement. -/
theorem claim_c8_seed_determinism (accept : Nat → Nat → Bool) (fuel : Nat)
    (calls : List RngCall) (seed : Nat) (st₁ st₂ : RngState) :
    (rng_uniform (rng_seed seed st₁)).1 = (rng_uniform (rng_seed seed st₂)).1 ∧
    rng_run accept fuel calls (rng_seed seed st₁) =
      rng_run accept fuel calls (rng_seed seed st₂) :=
  ⟨rfl, rng_run_spare accept fuel calls (seed % U32) st₁.spare st₂.spare⟩

/-- `side_ids` distributes over list append. -/
theorem side_ids_append (us vs : List PriceLevel) :
    side_ids (us ++ vs) = side_ids us ++ side_ids vs := by
  induction us with
  | nil => rfl
  | cons l rest ih => simp [side_ids, ih]

/-- When the inner FIFO walk exits with a non-NULL traversal pointer, the
incoming order is fully filled (this is what makes the outer loop run its
body at most once). -/
theorem fill_level_orders_resting :
    ∀ (os : List Order) (inc : Order) (t : Nat) (p lp : Rat) (lq : Nat),
      (fill_level_orders inc os t p lp lq).resting_none = false →
      (fill_level_orders inc os t p lp lq).incoming.quantity ≤
        (fill_level_orders inc os t p lp lq).incoming.filled_qty := by
  intro os
  induction os with
  | nil => intro inc t p lp lq h; simp [fill_level_orders] at h
  | cons r rest ih =>
    intro inc t p lp lq
    rw [fill_level_orders]
    dsimp only
    split
    · split
      · exact ih _ _ _ _ _
      · exact ih _ _ _ _ _
    · rename_i hc
      intro _
      dsimp only
      omega

/-- A fully filled incoming order makes `match_loop` exit at its guard,
for any fuel. -/
theorem match_loop_exit (n : Nat) (b : OrderBook) (o : Order)
    (h : o.quantity ≤ o.filled_qty) : match_loop n b o = (b, o, []) := by
  cases n with
  | zero => rfl
  | succ m => rw [match_loop, if_neg (by omega)]

/-- Both fuels collapse on a filled incoming order (the shape of the
recursive branch of `match_loop`). -/
theorem match_loop_fuel_aux (m : Nat) (b1 : OrderBook) (inc : Order)
    (reps : List ExecutionReport) (h : inc.quantity ≤ inc.filled_qty) :
    ((match_loop m b1 inc).1, (match_loop m b1 inc).2.1,
      reps ++ (match_loop m b1 inc).2.2) =
    ((match_loop 0 b1 inc).1, (match_loop 0 b1 inc).2.1,
      reps ++ (match_loop 0 b1 inc).2.2) := by
  rw [match_loop_exit m b1 inc h, match_loop_exit 0 b1 inc h]

/-- The fuel of `match_loop` is irrelevant once positive: the loop body can
only repeat when the traversal pointer is non-NULL on exit, which forces
the incoming order to be filled, so the next iteration exits at its guard.
This justifies `engine_match_orders := match_loop 2` as the exact semantics
of the unbounded C `while` loop. -/
theorem match_loop_fuel (n : Nat) (b : OrderBook) (o : Order) :
    match_loop (n + 1) b o = match_loop 1 b o := by
  rw [match_loop]
  conv_rhs => rw [match_loop]
  dsimp only
  repeat' split
  all_goals first
    | rfl
    | (apply match_loop_fuel_aux
       apply fill_level_orders_resting
       simp_all)

/-- `match_loop` never touches the order-id counter. -/
theorem match_loop_next_order_id :
    ∀ (n : Nat) (b : OrderBook) (o : Order),
      (match_loop n b o).1.next_order_id = b.next_order_id := by
  intro n
  induction n with
  | zero => intro b o; rfl
  | succ m ih =>
    intro b o
    rw [match_loop]
    dsimp only
    repeat' split
    all_goals first
      | rfl
      | (rw [ih])

/-- `match_loop` never changes the id of the incoming order. -/
theorem fill_level_orders_incoming_id :
    ∀ (os : List Order) (inc : Order) (t : Nat) (p lp : Rat) (lq : Nat),
      (fill_level_orders inc os t p lp lq).incoming.id = inc.id := by
  intro os
  induction os with
  | nil => intro inc t p lp lq; rfl
  | cons r rest ih =>
    intro inc t p lp lq
    rw [fill_level_orders]
    dsimp only
    split
    · split
      · exact ih _ _ _ _ _
      · exact ih _ _ _ _ _
    · rfl

/-- The id of the incoming order survives the whole matching loop. -/
theorem match_loop_incoming_id :
    ∀ (n : Nat) (b : OrderBook) (o : Order),
      (match_loop n b o).2.1.id = o.id := by
  intro n
  induction n with
  | zero => intro b o; rfl
  | succ m ih =>
    intro b o
    rw [match_loop]
    dsimp only
    repeat' split
    all_goals first
      | rfl
      | exact fill_level_orders_incoming_id _ _ _ _ _ _
      | (rw [ih]; exact fill_level_orders_incoming_id _ _ _ _ _ _)

/-- The inner FIFO walk only removes or updates-in-place resting orders: no
id appears in the remaining queue that was not there before. -/
theorem fill_level_orders_ids (i : Nat) :
    ∀ (os : List Order) (inc : Order) (t : Nat) (p lp : Rat) (lq : Nat),
      i ∈ (fill_level_orders inc os t p lp lq).orders.map (fun o => o.id) →
      i ∈ os.map (fun o => o.id) := by
  intro os
  induction os with
  | nil => intro inc t p lp lq h; simp [fill_level_orders] at h
  | cons r rest ih =>
    intro inc t p lp lq
    rw [fill_level_orders]
    dsimp only
    split
    · split
      · intro h
        simp only [List.map_cons, List.mem_cons]
        exact Or.inr (ih _ _ _ _ _ h)
      · intro h
        simp only [List.map_cons, List.mem_cons] at h ⊢
        rcases h with h | h
        · exact Or.inl h
        · exact Or.inr (ih _ _ _ _ _ h)
    · intro h
      exact h

/-- Clearing the opposing side (the source defect path) only loses ids. -/
theorem book_ids_clear_asks (b : OrderBook) (ba : Rat) (lp : Rat) (lq : Nat)
    (i : Nat)
    (h : i ∈ book_order_ids
      { b with asks := [], best_ask := ba,
               last_trade_price := lp, last_trade_qty := lq }) :
    i ∈ book_order_ids b := by
  simp only [book_order_ids, side_ids, List.append_nil, List.mem_append] at h ⊢
  exact Or.inl h

/-- Symmetric to `book_ids_clear_asks` for the bid side. -/
theorem book_ids_clear_bids (b : OrderBook) (bb : Rat) (lp : Rat) (lq : Nat)
    (i : Nat)
    (h : i ∈ book_order_ids
      { b with bids := [], best_bid := bb,
               last_trade_price := lp, last_trade_qty := lq }) :
    i ∈ book_order_ids b := by
  simp only [book_order_ids, side_ids, List.nil_append, List.mem_append] at h ⊢
  exact Or.inr h

/-- Replacing the walked head ask level by one whose queue ids are a subset
of the old queue's only loses ids. -/
theorem book_ids_level_asks (b : OrderBook) (lvl : PriceLevel)
    (rest : List PriceLevel) (os : List Order) (tq : Nat) (lp : Rat) (lq : Nat)
    (i : Nat) (heq : b.asks = lvl :: rest)
    (hos : ∀ j, j ∈ os.map (fun o => o.id) → j ∈ lvl.orders.map (fun o => o.id))
    (h : i ∈ book_order_ids
      { b with asks := { price := lvl.price, total_quantity := tq, orders := os } :: rest,
               last_trade_price := lp, last_trade_qty := lq }) :
    i ∈ book_order_ids b := by
  simp only [book_order_ids, side_ids, level_ids, List.mem_append, heq] at h ⊢
  rcases h with h | h | h
  · exact Or.inl h
  · exact Or.inr (Or.inl (hos i h))
  · exact Or.inr (Or.inr h)

/-- Symmetric to `book_ids_level_asks` for the bid side. -/
theorem book_ids_level_bids (b : OrderBook) (lvl : PriceLevel)
    (rest : List PriceLevel) (os : List Order) (tq : Nat) (lp : Rat) (lq : Nat)
    (i : Nat) (heq : b.bids = lvl :: rest)
    (hos : ∀ j, j ∈ os.map (fun o => o.id) → j ∈ lvl.orders.map (fun o => o.id))
    (h : i ∈ book_order_ids
      { b with bids := { price := lvl.price, total_quantity := tq, orders := os } :: rest,
               last_trade_price := lp, last_trade_qty := lq }) :
    i ∈ book_order_ids b := by
  simp only [book_order_ids, side_ids, level_ids, List.mem_append, heq] at h ⊢
  rcases h with (h | h) | h
  · exact Or.inl (Or.inl (hos i h))
  · exact Or.inl (Or.inr h)
  · exact Or.inr h

theorem match_loop_ids :
    ∀ (n : Nat) (b : OrderBook) (o : Order) (i : Nat),
      i ∈ book_order_ids (match_loop n b o).1 → i ∈ book_order_ids b := by
  intro n
  induction n with
  | zero => intro b o i h; exact h
  | succ m ih =>
    intro b o i
    rw [match_loop]
    dsimp only
    repeat' split
    all_goals intro h
    all_goals try exact h
    all_goals try replace h := ih _ _ _ h
    all_goals first
      | exact book_ids_clear_asks _ _ _ _ _ h
      | exact book_ids_clear_bids _ _ _ _ _ h
      | exact book_ids_level_asks _ _ _ _ _ _ _ _ (by assumption)
          (fun j hj => fill_level_orders_ids j _ _ _ _ _ _ hj) h
      | exact book_ids_level_bids _ _ _ _ _ _ _ _ (by assumption)
          (fun j hj => fill_level_orders_ids j _ _ _ _ _ _ hj) h

theorem level_append_ids (p : Rat) (o : Order) :
    ∀ (ls : List PriceLevel) (i : Nat),
      i ∈ side_ids (level_append ls p o) → i ∈ side_ids ls ∨ i = o.id := by
  intro ls
  induction ls with
  | nil => intro i h; simp [level_append, side_ids] at h
  | cons l rest ih =>
    intro i h
    rw [level_append] at h
    split at h
    · simp only [side_ids, level_ids, List.map_append, List.map_cons,
        List.map_nil, List.mem_append, List.mem_cons, List.mem_singleton,
        List.not_mem_nil, or_false] at h
      rcases h with (h | h) | h
      · exact Or.inl (by simp [side_ids, level_ids, List.mem_append, h])
      · exact Or.inr h
      · exact Or.inl (by simp [side_ids, level_ids, List.mem_append, h])
    · simp only [side_ids, List.mem_append] at h ⊢
      rcases h with h | h
      · exact Or.inl (Or.inl h)
      · rcases ih i h with h1 | h1
        · exact Or.inl (Or.inr h1)
        · exact Or.inr h1

theorem avl_insert_ids (lvl : PriceLevel) (ib : Bool) (hlvl : lvl.orders = []) :
    ∀ (ls : List PriceLevel) (i : Nat),
      i ∈ side_ids (avl_insert ls lvl ib) → i ∈ side_ids ls := by
  intro ls
  induction ls with
  | nil => intro i h; simp [avl_insert, side_ids, level_ids, hlvl] at h
  | cons l rest ih =>
    intro i h
    rw [avl_insert] at h
    split at h
    all_goals split at h
    all_goals first
      | (simp only [side_ids, level_ids, hlvl, List.map_nil, List.nil_append,
          List.mem_append] at h ⊢
         exact h)
      | (simp only [side_ids, List.mem_append] at h ⊢
         rcases h with h | h
         · exact Or.inl h
         · exact Or.inr (ih i h))

theorem order_book_add_order_order_id (b : OrderBook) (s : OrderSide)
    (t : OrderType) (p : Rat) (q : Nat) :
    (order_book_add_order b s t p q).2.id = b.next_order_id := by
  rw [order_book_add_order]
  dsimp only
  repeat' split
  all_goals rfl

theorem order_book_add_order_nid (b : OrderBook) (s : OrderSide)
    (t : OrderType) (p : Rat) (q : Nat) :
    (order_book_add_order b s t p q).1.next_order_id =
      (b.next_order_id + 1) % U64 := by
  rw [order_book_add_order]
  dsimp only
  repeat' split
  all_goals rfl

theorem order_book_add_order_ids (b : OrderBook) (s : OrderSide)
    (t : OrderType) (p : Rat) (q : Nat) (i : Nat) :
    i ∈ book_order_ids (order_book_add_order b s t p q).1 →
      i ∈ book_order_ids b ∨ i = b.next_order_id := by
  rw [order_book_add_order]
  dsimp only
  repeat' split
  all_goals intro h
  all_goals simp only [book_order_ids, List.mem_append] at h ⊢
  all_goals first
    | exact Or.inl h
    | (rcases h with h | h
       · rcases level_append_ids _ _ _ _ h with h1 | h1
         · exact Or.inl (Or.inl h1)
         · exact Or.inr h1
       · exact Or.inl (Or.inr h))
    | (rcases h with h | h
       · rcases level_append_ids _ _ _ _ h with h1 | h1
         · exact Or.inl (Or.inl (avl_insert_ids _ _ rfl _ _ h1))
         · exact Or.inr h1
       · exact Or.inl (Or.inr h))
    | (rcases h with h | h
       · exact Or.inl (Or.inl h)
       · rcases level_append_ids _ _ _ _ h with h1 | h1
         · exact Or.inl (Or.inr h1)
         · exact Or.inr h1)
    | (rcases h with h | h
       · exact Or.inl (Or.inl h)
       · rcases level_append_ids _ _ _ _ h with h1 | h1
         · exact Or.inl (Or.inr (avl_insert_ids _ _ rfl _ _ h1))
         · exact Or.inr h1)

theorem replace_tail_ids (o : Order) :
    ∀ (os : List Order) (i : Nat),
      i ∈ (replace_tail os o).map (fun x => x.id) →
        i ∈ os.map (fun x => x.id) ∨ i = o.id := by
  intro os
  induction os with
  | nil => intro i h; simp [replace_tail] at h
  | cons x rest ih =>
    intro i h
    cases rest with
    | nil =>
      simp only [replace_tail, List.map_cons, List.map_nil,
        List.mem_singleton] at h
      exact Or.inr h
    | cons y rest2 =>
      rw [replace_tail] at h
      simp only [List.map_cons, List.mem_cons] at h ⊢
      rcases h with h | h
      · exact Or.inl (Or.inl h)
      · rcases ih i h with h1 | h1
        · exact Or.inl (Or.inr (by simpa using h1))
        · exact Or.inr h1

theorem level_write_back_ids (p : Rat) (o : Order) :
    ∀ (ls : List PriceLevel) (i : Nat),
      i ∈ side_ids (level_write_back ls p o) → i ∈ side_ids ls ∨ i = o.id := by
  intro ls
  induction ls with
  | nil => intro i h; simp [level_write_back, side_ids] at h
  | cons l rest ih =>
    intro i h
    rw [level_write_back] at h
    split at h
    · simp only [side_ids, level_ids, List.mem_append] at h ⊢
      rcases h with h | h
      · rcases replace_tail_ids o l.orders i h with h1 | h1
        · exact Or.inl (Or.inl h1)
        · exact Or.inr h1
      · exact Or.inl (Or.inr h)
    · simp only [side_ids, List.mem_append] at h ⊢
      rcases h with h | h
      · exact Or.inl (Or.inl h)
      · rcases ih i h with h1 | h1
        · exact Or.inl (Or.inr h1)
        · exact Or.inr h1

theorem submit_order_on_book_nid (b : OrderBook) (s : OrderSide)
    (t : OrderType) (p : Rat) (q : Nat) :
    (submit_order_on_book b s t p q).1.next_order_id =
      (b.next_order_id + 1) % U64 := by
  have hm := match_loop_next_order_id 2 (order_book_add_order b s t p q).1
    (order_book_add_order b s t p q).2
  have ha := order_book_add_order_nid b s t p q
  rw [submit_order_on_book]
  dsimp only
  repeat' split
  all_goals exact hm.trans ha

theorem submit_order_on_book_ids (b : OrderBook) (s : OrderSide)
    (t : OrderType) (p : Rat) (q : Nat) (i : Nat) :
    i ∈ book_order_ids (submit_order_on_book b s t p q).1 →
      i ∈ book_order_ids b ∨ i = b.next_order_id := by
  have hid : (engine_match_orders (order_book_add_order b s t p q).1
      (order_book_add_order b s t p q).2).2.1.id = b.next_order_id :=
    (match_loop_incoming_id 2 _ _).trans (order_book_add_order_order_id b s t p q)
  rw [submit_order_on_book]
  dsimp only
  repeat' split
  all_goals intro h
  all_goals first
    | exact order_book_add_order_ids b s t p q i (match_loop_ids 2 _ _ i h)
    | (simp only [book_order_ids, List.mem_append] at h
       rcases h with h | h
       · rcases level_write_back_ids _ _ _ _ h with h1 | h1
         · exact order_book_add_order_ids b s t p q i
             (match_loop_ids 2 _ _ i
               (by simp only [book_order_ids, List.mem_append]; exact Or.inl h1))
         · exact Or.inr (h1.trans hid)
       · exact order_book_add_order_ids b s t p q i
           (match_loop_ids 2 _ _ i
             (by simp only [book_order_ids, List.mem_append]; exact Or.inr h)))
    | (simp only [book_order_ids, List.mem_append] at h
       rcases h with h | h
       · exact order_book_add_order_ids b s t p q i
           (match_loop_ids 2 _ _ i
             (by simp only [book_order_ids, List.mem_append]; exact Or.inl h))
       · rcases level_write_back_ids _ _ _ _ h with h1 | h1
         · exact order_book_add_order_ids b s t p q i
             (match_loop_ids 2 _ _ i
               (by simp only [book_order_ids, List.mem_append]; exact Or.inr h1))
         · exact Or.inr (h1.trans hid))

/-- `order_book_cancel_order` never touches the order-id counter. -/
theorem order_book_cancel_order_nid (b : OrderBook) (oid : Nat) :
    (order_book_cancel_order b oid).1.next_order_id = b.next_order_id := by
  rw [order_book_cancel_order]
  repeat' split
  all_goals rfl

/-- C9: id allocation.  A fresh book's counter starts at 1; every
`order_book_add_order` call (market orders included) hands out exactly the
current counter value as the order id and advances the counter by one
(`uint64_t` increment); cancel never touches the counter; a full submit
advances it by exactly one; and when all resting ids are below the counter
(as in every reachable book), they stay below the strictly larger new
counter after a submit — so an id, once allocated, is never reused. -/
theorem claim_c9_id_allocation :
    order_book_create.next_order_id = 1 ∧
    (∀ (b : OrderBook) (s : OrderSide) (t : OrderType) (p : Rat) (q : Nat),
        (order_book_add_order b s t p q).2.id = b.next_order_id ∧
        (order_book_add_order b s t p q).1.next_order_id =
          (b.next_order_id + 1) % U64) ∧
    (∀ (b : OrderBook) (oid : Nat),
        (order_book_cancel_order b oid).1.next_order_id = b.next_order_id) ∧
    (∀ (b : OrderBook) (s : OrderSide) (t : OrderType) (p : Rat) (q : Nat),
        (submit_order_on_book b s t p q).1.next_order_id =
          (b.next_order_id + 1) % U64) ∧
    (∀ (b : OrderBook) (s : OrderSide) (t : OrderType) (p : Rat) (q : Nat),
        b.next_order_id + 1 < U64 →
        (∀ i ∈ book_order_ids b, i < b.next_order_id) →
        ∀ i ∈ book_order_ids (submit_order_on_book b s t p q).1,
          i < (submit_order_on_book b s t p q).1.next_order_id) := by
  refine ⟨rfl,
    fun b s t p q =>
      ⟨order_book_add_order_order_id b s t p q, order_book_add_order_nid b s t p q⟩,
    order_book_cancel_order_nid, submit_order_on_book_nid, ?_⟩
  intro b s t p q h1 h2 i hi
  rw [submit_order_on_book_nid, Nat.mod_eq_of_lt h1]
  rcases submit_order_on_book_ids b s t p q i hi with h | h
  · exact Nat.lt_succ_of_lt (h2 i h)
  · omega

/-- C9, witnessed on the fresh book: after one limit submission every
resting id is below the advanced counter. -/
theorem claim_c9_witness :
    ∀ i ∈ book_order_ids
        (submit_order_on_book order_book_create OrderSide.buy
          OrderType.limit 100 5).1,
      i < (submit_order_on_book order_book_create OrderSide.buy
          OrderType.limit 100 5).1.next_order_id :=
  claim_c9_id_allocation.2.2.2.2 order_book_create OrderSide.buy
    OrderType.limit 100 5 (by decide) (by decide)

/-- Book holding one resting sell (id 1) at 100 qty 50, for the C5
witness. -/
def c5_book0 : OrderBook :=
  (submit_order_on_book aapl_book OrderSide.sell OrderType.limit 100 50).1

/-- C5: market orders never rest.  A market submission installs no order in
either side index (the set of resting ids can only shrink); a market order
with unfilled quantity after the loop is returned marked CANCELLED and
discarded; and concretely a market buy of qty 10 against the empty AAPL
book produces 0 reports, leaves the two indices, both best caches and the
last-trade fields unchanged (only the id counter advanced), and the
discarded order is CANCELLED. -/
theorem claim_c5_market_never_rests :
    (∀ (b : OrderBook) (s : OrderSide) (p : Rat) (q : Nat) (i : Nat),
        i ∈ book_order_ids (submit_order_on_book b s OrderType.market p q).1 →
        i ∈ book_order_ids b) ∧
    (∀ (b : OrderBook) (s : OrderSide) (p : Rat) (q : Nat),
        (submit_order_on_book b s OrderType.market p q).2.2.filled_qty <
          (submit_order_on_book b s OrderType.market p q).2.2.quantity →
        (submit_order_on_book b s OrderType.market p q).2.2.status =
          OrderStatus.cancelled) ∧
    (submit_order_on_book aapl_book OrderSide.buy OrderType.market 0 10).2.1 = [] ∧
    (submit_order_on_book aapl_book OrderSide.buy OrderType.market 0 10).1 =
      { aapl_book with next_order_id := 2 } ∧
    (submit_order_on_book aapl_book OrderSide.buy OrderType.market 0 10).2.2.status =
      OrderStatus.cancelled := by
  refine ⟨?_, ?_, by decide, by decide, by decide⟩
  · intro b s p q i h
    rw [submit_order_on_book] at h
    dsimp only at h
    rw [if_pos rfl] at h
    split at h
    all_goals
      exact match_loop_ids 2 (order_book_add_order b s OrderType.market p q).1
        (order_book_add_order b s OrderType.market p q).2 i h
  · intro b s p q h
    rw [submit_order_on_book] at h ⊢
    dsimp only at h ⊢
    rw [if_pos rfl] at h ⊢
    split at h
    · rename_i hc
      rw [if_pos hc]
    · rename_i hc
      exact absurd h hc

/-- C5, witnessed: a market buy against the resting sell of `c5_book0`
keeps id 1 resting (no new id appears), and the unfillable market buy on
the empty book comes back CANCELLED. -/
theorem claim_c5_witness :
    1 ∈ book_order_ids c5_book0 ∧
    (submit_order_on_book aapl_book OrderSide.buy OrderType.market 0 10).2.2.status =
      OrderStatus.cancelled :=
  ⟨claim_c5_market_never_rests.1 c5_book0 OrderSide.buy 0 10 1 (by decide),
   claim_c5_market_never_rests.2.1 aapl_book OrderSide.buy 0 10 (by decide)⟩

/-- Book holding one resting sell (id 1) at 100 qty 10, the prior state of
the C6 counterexample. -/
def c6_book0 : OrderBook :=
  (submit_order_on_book aapl_book OrderSide.sell OrderType.limit 100 10).1

/-- The C6 round trip: submit buy-limit @100 qty 10 (which crosses), then
cancel the id it allocated. -/
def c6_roundtrip : OrderBook × Bool :=
  order_book_cancel_order
    (submit_order_on_book c6_book0 OrderSide.buy OrderType.limit 100 10).1
    c6_book0.next_order_id

/-- C6 (counterexample): round-trip law R1 fails when the submission
crosses.  From a book holding a resting sell at 100, submit(buy, limit,
100, 10) fills against it and then cancel(allocated id) still returns true
(the filled aggressive order was left resting), but the resulting book is
not the prior book: the ask side is now empty and last_trade_price moved
from 150 to 100. -/
theorem claim_c6_counterexample :
    c6_roundtrip.2 = true ∧
    c6_roundtrip.1.asks = [] ∧
    c6_book0.asks ≠ [] ∧
    c6_roundtrip.1.last_trade_price = 100 ∧
    c6_book0.last_trade_price = 150 := by
  decide


/-
Support lemmas for the round-trip law (claim C6): exact characterizations
of `orders_remove`, `avl_find`, `avl_insert`, `avl_delete`, `level_append`,
`side_cancel` and `level_write_back` on split lists, the `uint32`
add-then-subtract cancellation, and the two case analyses (existing level /
fresh level) of a non-crossing buy-limit submission followed by a cancel.
-/

theorem u32sub_zero (x : Nat) (hx : x < U32) : u32sub x 0 = x := by
  unfold u32sub U32 at *
  omega

theorem u32_add_sub (t q : Nat) (ht : t < U32) (hq : q < U32) :
    u32sub (u32add t q) q = t := by
  unfold u32sub u32add U32 at *
  omega

theorem orders_remove_none :
    ∀ (os : List Order) (oid : Nat), (∀ x ∈ os, x.id ≠ oid) →
      orders_remove os oid = none := by
  intro os
  induction os with
  | nil => intro oid h; rfl
  | cons x rest ih =>
    intro oid h
    rw [orders_remove, if_neg (h x (by simp)), ih oid (fun y hy => h y (by simp [hy]))]

theorem orders_remove_append (o : Order) (oid : Nat) (ho : o.id = oid) :
    ∀ (xs : List Order), (∀ x ∈ xs, x.id ≠ oid) →
      orders_remove (xs ++ [o]) oid = some (o, xs) := by
  intro xs
  induction xs with
  | nil => intro h; simp [orders_remove, ho]
  | cons x rest ih =>
    intro h
    rw [List.cons_append, orders_remove, if_neg (h x (by simp)),
      ih (fun y hy => h y (by simp [hy]))]

theorem avl_find_none :
    ∀ (ls : List PriceLevel) (p : Rat), avl_find ls p = none →
      ∀ l ∈ ls, l.price ≠ p := by
  intro ls p h l hl
  rcases List.find?_eq_none.mp h l hl with hne
  simpa using hne

theorem avl_find_some_split :
    ∀ (ls : List PriceLevel) (p : Rat) (lvl : PriceLevel),
      avl_find ls p = some lvl →
      ∃ us vs, ls = us ++ lvl :: vs ∧ (∀ u ∈ us, u.price ≠ p) ∧ lvl.price = p := by
  intro ls
  induction ls with
  | nil => intro p lvl h; simp [avl_find] at h
  | cons l rest ih =>
    intro p lvl h
    rw [avl_find, List.find?] at h
    by_cases hp : l.price = p
    · rw [decide_eq_true hp] at h
      obtain rfl : l = lvl := by injection h
      exact ⟨[], rest, rfl, by simp, hp⟩
    · rw [decide_eq_false hp] at h
      obtain ⟨us, vs, h1, h2, h3⟩ := ih p lvl h
      refine ⟨l :: us, vs, by simp [h1], ?_, h3⟩
      intro u hu
      rcases List.mem_cons.mp hu with rfl | hu
      · exact hp
      · exact h2 u hu

theorem avl_insert_split :
    ∀ (ls : List PriceLevel) (lvl : PriceLevel) (ib : Bool),
      ∃ us vs, avl_insert ls lvl ib = us ++ lvl :: vs ∧ ls = us ++ vs := by
  intro ls
  induction ls with
  | nil => intro lvl ib; exact ⟨[], [], rfl, rfl⟩
  | cons l rest ih =>
    intro lvl ib
    rw [avl_insert]
    split <;> split
    all_goals first
      | exact ⟨[], l :: rest, rfl, rfl⟩
      | (obtain ⟨us, vs, h1, h2⟩ := ih lvl ib
         exact ⟨l :: us, vs, by simp [h1], by simp [h2]⟩)

theorem level_append_onto (p : Rat) (o : Order) :
    ∀ (us : List PriceLevel) (l : PriceLevel) (vs : List PriceLevel),
      (∀ u ∈ us, u.price ≠ p) → l.price = p →
      level_append (us ++ l :: vs) p o =
        us ++ { l with
          orders := l.orders ++ [o],
          total_quantity := u32add l.total_quantity o.quantity } :: vs := by
  intro us
  induction us with
  | nil =>
    intro l vs _ hl
    rw [List.nil_append, level_append, if_pos hl, List.nil_append]
  | cons u rest ih =>
    intro l vs hus hl
    rw [List.cons_append, level_append, if_neg (hus u (by simp)),
      ih l vs (fun y hy => hus y (by simp [hy])) hl, List.cons_append]

theorem avl_delete_onto (p : Rat) (ib : Bool) :
    ∀ (us : List PriceLevel) (ls : List PriceLevel),
      (∀ u ∈ us, u.price ≠ p) →
      avl_delete (us ++ ls) p ib = us ++ avl_delete ls p ib := by
  intro us
  induction us with
  | nil => intro ls _; rfl
  | cons u rest ih =>
    intro ls hus
    rw [List.cons_append, avl_delete, if_neg (hus u (by simp)),
      ih ls (fun y hy => hus y (by simp [hy])), List.cons_append]

theorem side_cancel_onto (oid : Nat) :
    ∀ (us : List PriceLevel) (ls : List PriceLevel),
      (∀ i ∈ side_ids us, i ≠ oid) →
      side_cancel (us ++ ls) oid =
        (side_cancel ls oid).map (fun r => (us ++ r.1, r.2)) := by
  intro us
  induction us with
  | nil =>
    intro ls _
    rw [List.nil_append]
    rcases h : side_cancel ls oid with _ | ⟨ls1, pr, e⟩ <;> simp
  | cons u rest ih =>
    intro ls hus
    have hu : ∀ x ∈ u.orders, x.id ≠ oid := by
      intro x hx
      exact hus x.id (by simp [side_ids, level_ids]; exact Or.inl ⟨x, hx, rfl⟩)
    rw [List.cons_append, side_cancel, orders_remove_none u.orders oid hu,
      ih ls (fun i hi => hus i (by simp [side_ids]; exact Or.inr hi))]
    rcases h : side_cancel ls oid with _ | ⟨ls1, pr, e⟩ <;> simp

theorem replace_tail_append (o : Order) :
    ∀ (xs : List Order), replace_tail (xs ++ [o]) o = xs ++ [o] := by
  intro xs
  induction xs with
  | nil => rfl
  | cons x rest ih =>
    cases rest with
    | nil => rfl
    | cons y rest2 =>
      have ih2 := ih
      simp only [List.cons_append] at ih2 ⊢
      rw [replace_tail, ih2]

theorem level_write_back_onto (p : Rat) (o : Order) :
    ∀ (us : List PriceLevel) (l : PriceLevel) (vs : List PriceLevel),
      (∀ u ∈ us, u.price ≠ p) → l.price = p →
      level_write_back (us ++ l :: vs) p o =
        us ++ { l with orders := replace_tail l.orders o } :: vs := by
  intro us
  induction us with
  | nil =>
    intro l vs _ hl
    rw [List.nil_append, level_write_back, if_pos hl, List.nil_append]
  | cons u rest ih =>
    intro l vs hus hl
    rw [List.cons_append, level_write_back, if_neg (hus u (by simp)),
      ih l vs (fun y hy => hus y (by simp [hy])) hl, List.cons_append]

theorem side_best_congr :
    ∀ (us : List PriceLevel) (l1 l2 : PriceLevel) (vs : List PriceLevel),
      l1.price = l2.price →
      side_best (us ++ l1 :: vs) = side_best (us ++ l2 :: vs) := by
  intro us l1 l2 vs h
  cases us with
  | nil => simpa [side_best, avl_get_best] using h
  | cons u rest => simp [side_best, avl_get_best]

theorem c6_match_nocross (bk : OrderBook) (o : Order)
    (hside : o.side = OrderSide.buy) (htype : o.type = OrderType.limit)
    (hcross : side_best bk.asks ≤ 0 ∨ o.price < side_best bk.asks) :
    engine_match_orders bk o = (bk, o, []) := by
  unfold engine_match_orders
  rw [match_loop]
  by_cases hq : o.filled_qty < o.quantity
  · rw [if_pos hq]
    dsimp only
    by_cases hb : side_best bk.asks ≤ 0
    · simp [hside, htype, order_book_get_best_ask, hb]
    · have hgt : o.price < side_best bk.asks := by
        rcases hcross with h | h
        · exact absurd h hb
        · exact h
      simp [hside, htype, order_book_get_best_ask, hb, hgt]
  · rw [if_neg hq]

theorem c6_add_some (b : OrderBook) (p : Rat) (q : Nat)
    (lvl : PriceLevel) (hfind : avl_find b.bids p = some lvl) :
    order_book_add_order b OrderSide.buy OrderType.limit p q =
      ({ b with
          next_order_id := (b.next_order_id + 1) % U64,
          bids := level_append b.bids p
            (order_create b.next_order_id OrderSide.buy OrderType.limit p q),
          best_bid := side_best (level_append b.bids p
            (order_create b.next_order_id OrderSide.buy OrderType.limit p q)) },
        order_create b.next_order_id OrderSide.buy OrderType.limit p q) := by
  rw [order_book_add_order]
  simp [hfind]

theorem c6_add_none (b : OrderBook) (p : Rat) (q : Nat)
    (hfind : avl_find b.bids p = none) :
    order_book_add_order b OrderSide.buy OrderType.limit p q =
      ({ b with
          next_order_id := (b.next_order_id + 1) % U64,
          bids := level_append
            (avl_insert b.bids { price := p, total_quantity := 0, orders := [] } true) p
            (order_create b.next_order_id OrderSide.buy OrderType.limit p q),
          best_bid := side_best (level_append
            (avl_insert b.bids { price := p, total_quantity := 0, orders := [] } true) p
            (order_create b.next_order_id OrderSide.buy OrderType.limit p q)) },
        order_create b.next_order_id OrderSide.buy OrderType.limit p q) := by
  rw [order_book_add_order]
  simp [hfind]

theorem c6_submit_some (b : OrderBook) (p : Rat) (q : Nat)
    (lvl : PriceLevel) (hfind : avl_find b.bids p = some lvl)
    (hcross : side_best b.asks ≤ 0 ∨ p < side_best b.asks) :
    (submit_order_on_book b OrderSide.buy OrderType.limit p q).1 =
      { b with
        next_order_id := (b.next_order_id + 1) % U64,
        bids := level_append b.bids p
          (order_create b.next_order_id OrderSide.buy OrderType.limit p q),
        best_bid := side_best (level_append b.bids p
          (order_create b.next_order_id OrderSide.buy OrderType.limit p q)) } := by
  obtain ⟨us, vs, hsplit, hus, hlp⟩ := avl_find_some_split b.bids p lvl hfind
  have happ : level_append b.bids p
      (order_create b.next_order_id OrderSide.buy OrderType.limit p q) =
      us ++ { lvl with
        orders := lvl.orders ++
          [order_create b.next_order_id OrderSide.buy OrderType.limit p q],
        total_quantity := u32add lvl.total_quantity
          (order_create b.next_order_id OrderSide.buy OrderType.limit p q).quantity }
        :: vs := by
    rw [hsplit]
    exact level_append_onto p _ us lvl vs hus hlp
  have hwb : level_write_back (level_append b.bids p
      (order_create b.next_order_id OrderSide.buy OrderType.limit p q)) p
      (order_create b.next_order_id OrderSide.buy OrderType.limit p q) =
      level_append b.bids p
        (order_create b.next_order_id OrderSide.buy OrderType.limit p q) := by
    rw [happ, level_write_back_onto p _ us _ vs hus (by exact hlp)]
    dsimp only
    rw [replace_tail_append]
  rw [submit_order_on_book]
  dsimp only
  rw [c6_add_some b p q lvl hfind]
  dsimp only
  rw [c6_match_nocross
      { bids := level_append b.bids p
          (order_create b.next_order_id OrderSide.buy OrderType.limit p q),
        asks := b.asks, next_order_id := (b.next_order_id + 1) % U64,
        best_bid := side_best (level_append b.bids p
          (order_create b.next_order_id OrderSide.buy OrderType.limit p q)),
        best_ask := b.best_ask, last_trade_price := b.last_trade_price,
        last_trade_qty := b.last_trade_qty }
      (order_create b.next_order_id OrderSide.buy OrderType.limit p q)
      rfl rfl hcross]
  dsimp only
  rw [if_neg (by decide : ¬ (OrderType.limit = OrderType.market)),
    if_pos (rfl : OrderSide.buy = OrderSide.buy)]
  dsimp only
  rw [hwb]

theorem c6_submit_none (b : OrderBook) (p : Rat) (q : Nat)
    (hfind : avl_find b.bids p = none)
    (hcross : side_best b.asks ≤ 0 ∨ p < side_best b.asks) :
    (submit_order_on_book b OrderSide.buy OrderType.limit p q).1 =
      { b with
        next_order_id := (b.next_order_id + 1) % U64,
        bids := level_append
          (avl_insert b.bids { price := p, total_quantity := 0, orders := [] } true) p
          (order_create b.next_order_id OrderSide.buy OrderType.limit p q),
        best_bid := side_best (level_append
          (avl_insert b.bids { price := p, total_quantity := 0, orders := [] } true) p
          (order_create b.next_order_id OrderSide.buy OrderType.limit p q)) } := by
  have hprices := avl_find_none b.bids p hfind
  obtain ⟨us, vs, hins, hbids⟩ :=
    avl_insert_split b.bids { price := p, total_quantity := 0, orders := [] } true
  have hus : ∀ u ∈ us, u.price ≠ p := by
    intro u hu
    exact hprices u (by rw [hbids]; exact List.mem_append_left vs hu)
  have happ : level_append
      (avl_insert b.bids { price := p, total_quantity := 0, orders := [] } true) p
      (order_create b.next_order_id OrderSide.buy OrderType.limit p q) =
      us ++ { price := p,
              total_quantity := u32add 0
                (order_create b.next_order_id OrderSide.buy OrderType.limit p q).quantity,
              orders := [] ++
                [order_create b.next_order_id OrderSide.buy OrderType.limit p q] }
        :: vs := by
    rw [hins]
    exact level_append_onto p _ us _ vs hus rfl
  have hwb : level_write_back (level_append
      (avl_insert b.bids { price := p, total_quantity := 0, orders := [] } true) p
      (order_create b.next_order_id OrderSide.buy OrderType.limit p q)) p
      (order_create b.next_order_id OrderSide.buy OrderType.limit p q) =
      level_append
        (avl_insert b.bids { price := p, total_quantity := 0, orders := [] } true) p
        (order_create b.next_order_id OrderSide.buy OrderType.limit p q) := by
    rw [happ, level_write_back_onto p _ us _ vs hus rfl]
    rfl
  rw [submit_order_on_book]
  dsimp only
  rw [c6_add_none b p q hfind]
  dsimp only
  rw [c6_match_nocross
      { bids := level_append
          (avl_insert b.bids { price := p, total_quantity := 0, orders := [] } true) p
          (order_create b.next_order_id OrderSide.buy OrderType.limit p q),
        asks := b.asks, next_order_id := (b.next_order_id + 1) % U64,
        best_bid := side_best (level_append
          (avl_insert b.bids { price := p, total_quantity := 0, orders := [] } true) p
          (order_create b.next_order_id OrderSide.buy OrderType.limit p q)),
        best_ask := b.best_ask, last_trade_price := b.last_trade_price,
        last_trade_qty := b.last_trade_qty }
      (order_create b.next_order_id OrderSide.buy OrderType.limit p q)
      rfl rfl hcross]
  dsimp only
  rw [if_neg (by decide : ¬ (OrderType.limit = OrderType.market)),
    if_pos (rfl : OrderSide.buy = OrderSide.buy)]
  dsimp only
  rw [hwb]

theorem c6_case_some (b : OrderBook) (p : Rat) (q : Nat)
    (lvl : PriceLevel) (hfind : avl_find b.bids p = some lvl)
    (hcross : side_best b.asks ≤ 0 ∨ p < side_best b.asks)
    (hfresh : ∀ i ∈ book_order_ids b, i ≠ b.next_order_id)
    (hsync : b.best_bid = side_best b.bids)
    (htot : ∀ l ∈ b.bids, l.total_quantity < U32)
    (hne : ∀ l ∈ b.bids, l.orders ≠ []) :
    order_book_cancel_order
        (submit_order_on_book b OrderSide.buy OrderType.limit p q).1
        b.next_order_id =
      ({ b with next_order_id := (b.next_order_id + 1) % U64 }, true) := by
  obtain ⟨us, vs, hsplit, hus, hlp⟩ := avl_find_some_split b.bids p lvl hfind
  have hlvlmem : lvl ∈ b.bids := by rw [hsplit]; simp
  have happ : level_append b.bids p
      (order_create b.next_order_id OrderSide.buy OrderType.limit p q) =
      us ++ { lvl with
        orders := lvl.orders ++
          [order_create b.next_order_id OrderSide.buy OrderType.limit p q],
        total_quantity := u32add lvl.total_quantity
          (order_create b.next_order_id OrderSide.buy OrderType.limit p q).quantity }
        :: vs := by
    rw [hsplit]
    exact level_append_onto p _ us lvl vs hus hlp
  have husid : ∀ i ∈ side_ids us, i ≠ b.next_order_id := by
    intro i hi
    apply hfresh
    simp only [book_order_ids, hsplit, side_ids_append, List.mem_append]
    exact Or.inl (Or.inl hi)
  have hlvlid : ∀ x ∈ lvl.orders, x.id ≠ b.next_order_id := by
    intro x hx
    apply hfresh
    simp only [book_order_ids, hsplit, side_ids_append, side_ids, level_ids,
      List.mem_append, List.mem_map, List.append_nil]
    exact Or.inl (Or.inr (Or.inl ⟨x, hx, rfl⟩))
  have hq32 : (order_create b.next_order_id OrderSide.buy OrderType.limit p q).quantity
      < U32 := by
    have : U32 ≠ 0 := by decide
    exact Nat.mod_lt q (by omega)
  have hl1 : ({
      price := lvl.price,
      total_quantity := u32sub (u32add lvl.total_quantity (order_create b.next_order_id OrderSide.buy OrderType.limit p q).quantity) (u32sub (order_create b.next_order_id OrderSide.buy OrderType.limit p q).quantity (order_create b.next_order_id OrderSide.buy OrderType.limit p q).filled_qty),
      orders := lvl.orders } : PriceLevel) = lvl := by
    have h0 : u32sub
        (order_create b.next_order_id OrderSide.buy OrderType.limit p q).quantity
        (order_create b.next_order_id OrderSide.buy OrderType.limit p q).filled_qty =
        (order_create b.next_order_id OrderSide.buy OrderType.limit p q).quantity :=
      u32sub_zero _ hq32
    rw [h0, u32_add_sub _ _ (htot lvl hlvlmem) hq32]
  have hsc : side_cancel (us ++ ({ lvl with
      orders := lvl.orders ++
        [order_create b.next_order_id OrderSide.buy OrderType.limit p q],
      total_quantity := u32add lvl.total_quantity
        (order_create b.next_order_id OrderSide.buy OrderType.limit p q).quantity }
      : PriceLevel) :: vs) b.next_order_id =
      some (us ++ lvl :: vs, lvl.price, lvl.orders.isEmpty) := by
    rw [side_cancel_onto _ us _ husid, side_cancel]
    try dsimp only
    rw [orders_remove_append _ b.next_order_id rfl lvl.orders hlvlid]
    try dsimp only
    rw [hl1]
    rcases lvl.orders with _ | ⟨a, as⟩ <;> simp
  rw [c6_submit_some b p q lvl hfind hcross]
  rw [order_book_cancel_order]
  try dsimp only
  rw [happ, hsc]
  try dsimp only
  have hempty : lvl.orders.isEmpty = false := by
    rcases h : lvl.orders with _ | ⟨a, as⟩
    · exact absurd h (hne lvl hlvlmem)
    · rfl
  rw [hempty]
  try dsimp only
  rw [← hsplit]
  have hbb : side_best (us ++ ({ lvl with
      orders := lvl.orders ++
        [order_create b.next_order_id OrderSide.buy OrderType.limit p q],
      total_quantity := u32add lvl.total_quantity
        (order_create b.next_order_id OrderSide.buy OrderType.limit p q).quantity }
      : PriceLevel) :: vs) = b.best_bid := by
    rw [side_best_congr us ({ lvl with
        orders := lvl.orders ++
          [order_create b.next_order_id OrderSide.buy OrderType.limit p q],
        total_quantity := u32add lvl.total_quantity
          (order_create b.next_order_id OrderSide.buy OrderType.limit p q).quantity }
        : PriceLevel) lvl vs rfl, ← hsplit, hsync]
  rw [hbb]
  simp

theorem c6_case_none (b : OrderBook) (p : Rat) (q : Nat)
    (hfind : avl_find b.bids p = none)
    (hcross : side_best b.asks ≤ 0 ∨ p < side_best b.asks)
    (hfresh : ∀ i ∈ book_order_ids b, i ≠ b.next_order_id)
    (hsync : b.best_bid = side_best b.bids) :
    order_book_cancel_order
        (submit_order_on_book b OrderSide.buy OrderType.limit p q).1
        b.next_order_id =
      ({ b with next_order_id := (b.next_order_id + 1) % U64 }, true) := by
  have hprices := avl_find_none b.bids p hfind
  obtain ⟨us, vs, hins, hbids⟩ :=
    avl_insert_split b.bids { price := p, total_quantity := 0, orders := [] } true
  have hus : ∀ u ∈ us, u.price ≠ p := by
    intro u hu
    exact hprices u (by rw [hbids]; exact List.mem_append_left vs hu)
  have happ : level_append
      (avl_insert b.bids { price := p, total_quantity := 0, orders := [] } true) p
      (order_create b.next_order_id OrderSide.buy OrderType.limit p q) =
      us ++ ({
        price := p,
        total_quantity := u32add 0 (order_create b.next_order_id OrderSide.buy OrderType.limit p q).quantity,
        orders := [] ++ [order_create b.next_order_id OrderSide.buy OrderType.limit p q] }
        : PriceLevel) :: vs := by
    rw [hins]
    exact level_append_onto p _ us _ vs hus rfl
  have husid : ∀ i ∈ side_ids us, i ≠ b.next_order_id := by
    intro i hi
    apply hfresh
    simp only [book_order_ids, hbids, side_ids_append, List.mem_append]
    exact Or.inl (Or.inl hi)
  have hsc : side_cancel (us ++ ({
      price := p,
      total_quantity := u32add 0 (order_create b.next_order_id OrderSide.buy OrderType.limit p q).quantity,
      orders := [] ++ [order_create b.next_order_id OrderSide.buy OrderType.limit p q] }
      : PriceLevel) :: vs) b.next_order_id =
      some (us ++ ({
        price := p,
        total_quantity := u32sub (u32add 0 (order_create b.next_order_id OrderSide.buy OrderType.limit p q).quantity) (u32sub (order_create b.next_order_id OrderSide.buy OrderType.limit p q).quantity (order_create b.next_order_id OrderSide.buy OrderType.limit p q).filled_qty),
        orders := [] } : PriceLevel) :: vs, p, true) := by
    rw [side_cancel_onto _ us _ husid, side_cancel]
    try dsimp only
    rw [orders_remove_append _ b.next_order_id rfl [] (by simp)]
    rfl
  have hdel : avl_delete (us ++ ({
      price := p,
      total_quantity := u32sub (u32add 0 (order_create b.next_order_id OrderSide.buy OrderType.limit p q).quantity) (u32sub (order_create b.next_order_id OrderSide.buy OrderType.limit p q).quantity (order_create b.next_order_id OrderSide.buy OrderType.limit p q).filled_qty),
      orders := [] } : PriceLevel) :: vs) p true = us ++ vs := by
    rw [avl_delete_onto p true us _ hus, avl_delete]
    rw [if_pos rfl]
  rw [c6_submit_none b p q hfind hcross]
  rw [order_book_cancel_order]
  try dsimp only
  rw [happ, hsc]
  try dsimp only
  rw [if_pos (rfl : (true : Bool) = true)]
  rw [hdel, ← hbids, ← hsync]

/-- Book used to witness the amended round-trip law: one resting bid (id 7)
at 90 and one resting ask (id 8) at 102, caches in sync, counter at 9. -/
def c6_witness_book : OrderBook :=
  { bids := [{ price := 90, total_quantity := 50,
               orders := [{ id := 7, side := OrderSide.buy,
                            type := OrderType.limit, price := 90,
                            quantity := 50, filled_qty := 0,
                            status := OrderStatus.new }] }],
    asks := [{ price := 102, total_quantity := 5,
               orders := [{ id := 8, side := OrderSide.sell,
                            type := OrderType.limit, price := 102,
                            quantity := 5, filled_qty := 0,
                            status := OrderStatus.new }] }],
    next_order_id := 9, best_bid := 90, best_ask := 102,
    last_trade_price := 150, last_trade_qty := 0 }

/-- C6 (amended): the round-trip law restricted to non-crossing
submissions.  For every book whose best-bid cache is in sync with its bid
index, whose resting ids avoid the next order id, whose bid-level totals
fit in `uint32` and whose bid FIFOs are non-empty (all invariants of
reachable books), if the ask side is empty (best ask 0) or the buy limit
price is strictly below the best ask, then submit(buy, limit, p, q)
followed by cancel of the id it allocated returns true and leaves the book
bit-identical to the prior state — same side indices with the same FIFO
queues, same best caches, same last-trade fields — excluding only the
next-order-id counter, which has advanced by one. -/
theorem claim_c6_amended (b : OrderBook) (p : Rat) (q : Nat)
    (hcross : order_book_get_best_ask b ≤ 0 ∨ p < order_book_get_best_ask b)
    (hfresh : ∀ i ∈ book_order_ids b, i ≠ b.next_order_id)
    (hsync : b.best_bid = side_best b.bids)
    (htot : ∀ l ∈ b.bids, l.total_quantity < U32)
    (hne : ∀ l ∈ b.bids, l.orders ≠ []) :
    order_book_cancel_order
        (submit_order_on_book b OrderSide.buy OrderType.limit p q).1
        b.next_order_id =
      ({ b with next_order_id := (b.next_order_id + 1) % U64 }, true) := by
  rcases hf : avl_find b.bids p with _ | lvl
  · exact c6_case_none b p q hf hcross hfresh hsync
  · exact c6_case_some b p q lvl hf hcross hfresh hsync htot hne

/-- C6 amended, witnessed on a concrete two-sided book: a non-crossing buy
limit at 100 below the 102 ask, submitted and cancelled, restores the book
except the counter. -/
theorem claim_c6_amended_witness :
    order_book_cancel_order
        (submit_order_on_book c6_witness_book OrderSide.buy OrderType.limit 100 7).1
        c6_witness_book.next_order_id =
      ({ c6_witness_book with
          next_order_id := (c6_witness_book.next_order_id + 1) % U64 }, true) :=
  claim_c6_amended c6_witness_book 100 7 (by decide) (by decide) (by decide)
    (by decide) (by decide)

end StockMarket
